import Mathlib

/-!
Verification of the pagination engine and client construction of the
go-anxcloud client library, against its natural-language specification.

The Go sources embedded here:
  * pkg/lbaas/pagination (LoopUntil, AsChan, HasNext, Page, Pageable),
  * pkg/lbaas/backend/paged.go and pkg/lbaas/server/paged.go (GetPage, NextPage),
  * pkg/client/client.go (New, options, ErrConfiguration).

Dynamic Go values (`interface\x7b\x7d` contents inspected via the reflect
package) are modelled by the inductive `GoVal`; `reflect.Value` by the
wrapper `RV`.  Errors are modelled by `GoErr`, with `GoErr.wrapped`
standing for `fmt.Errorf` with the `%w` verb and `errorsIs` for
`errors.Is`.  A Go `panic` is a distinguished outcome, never an error
value.
-/

namespace Anx

/-- Model of Go `error` values used by the embedded code.
`wrapped msg cause` models `fmt.Errorf("...%w...", cause)`;
`conditionNeverMet` models `pagination.ErrConditionNeverMet`;
`errConfiguration` models `client.ErrConfiguration`;
`errEnvMissing` models `client.ErrEnvMissing`;
`custom` models any other error value (transport errors, user errors, ...). -/
inductive GoErr where
  | conditionNeverMet : GoErr
  | errConfiguration : GoErr
  | errEnvMissing : GoErr
  | custom : String → GoErr
  | wrapped : String → GoErr → GoErr
deriving DecidableEq

/-- Model of `errors.Is`: unwraps `wrapped` causes until the target is found. -/
def errorsIs (e target : GoErr) : Bool :=
  decide (e = target) ||
    match e with
    | .wrapped _ cause => errorsIs cause target
    | _ => false

/-- Model of a dynamically typed Go value (an `interface\x7b\x7d`), restricted
to the shapes the embedded code can encounter: slices, arrays, ints,
strings, a boxed `reflect.Value` (constructor `rval`, produced when a
`reflect.Value` is itself passed as an `interface\x7b\x7d` argument),
and the nil interface. -/
inductive GoVal where
  | slice : List GoVal → GoVal
  | arr : List GoVal → GoVal
  | intV : Int → GoVal
  | strV : String → GoVal
  | rval : GoVal → GoVal
  | nilV : GoVal

/-- Model of `reflect.Value`: a wrapper around the dynamic value it reflects. -/
structure RV where
  val : GoVal

/-- Model of `reflect.ValueOf`. -/
def reflectValueOf (v : GoVal) : RV := ⟨v⟩

/-- Passing a `reflect.Value` where an `interface\x7b\x7d` is expected boxes
the `reflect.Value` struct itself into the interface. -/
def RV.boxed (r : RV) : GoVal := .rval r.val

/-- Model of `reflect.Kind`, restricted to the kinds `GoVal` can produce.
A boxed `reflect.Value` is a struct, hence kind `structK`. -/
inductive RKind where
  | invalid | array | slice | intK | stringK | structK
deriving DecidableEq

/-- Model of `reflect.Value.Kind`. -/
def RV.kind : RV → RKind
  | ⟨.slice _⟩ => .slice
  | ⟨.arr _⟩ => .array
  | ⟨.intV _⟩ => .intK
  | ⟨.strV _⟩ => .stringK
  | ⟨.rval _⟩ => .structK
  | ⟨.nilV⟩ => .invalid

/-- Model of `reflect.Value.Len`: defined for arrays, slices and strings,
a panic (`none`) for every other kind. -/
def RV.lenOpt : RV → Option Nat
  | ⟨.slice xs⟩ => some xs.length
  | ⟨.arr xs⟩ => some xs.length
  | ⟨.strV s⟩ => some s.length
  | _ => none

/-- The elements `reflect.Value.Index` walks over for a slice or array value. -/
def RV.elems : RV → List GoVal
  | ⟨.slice xs⟩ => xs
  | ⟨.arr xs⟩ => xs
  | _ => []

/-- The panic message of `reflect.Value.Len` on a struct-kind value. -/
def reflectLenPanicMsg : String := "reflect: call of reflect.Value.Len on struct Value"

/-- Model of the `%T` verb of `fmt.Sprintf` on a `GoVal`, up to the spelling
of the concrete Go type names (the elements are opaque here). -/
def goTypeName : GoVal → String
  | .slice _ => "slice"
  | .arr _ => "array"
  | .intV _ => "int"
  | .strV _ => "string"
  | .rval _ => "reflect.Value"
  | .nilV => "<nil>"

/-- The panic message of LoopUntil's `default` branch:
`fmt.Sprintf("The page content is supposed to be of type slice or array but was %T", page.Content())`. -/
def contentTypePanicMsg (c : GoVal) : String :=
  "The page content is supposed to be of type slice or array but was " ++ goTypeName c

/-- The pagination `Page` interface: `Num`, `Size`, `Total`, `Content`.
Implementations (`BackendPage`, `ServerPage`) return struct fields, so a
page is modelled as a record; `content` is the dynamic `Content()` value. -/
structure Page where
  num : Int
  size : Int
  total : Int
  content : GoVal

/-- The `Pageable` interface: `GetPage(ctx, page, limit)` and
`NextPage(ctx, page)`.  The `context.Context` argument is dropped: the
embedded code only threads it through. -/
structure Pageable where
  getPage : Int → Int → Except GoErr Page
  nextPage : Page → Except GoErr Page

/-- The outcome of `LoopUntil`: a nil error, a non-nil error, or a panic. -/
inductive LoopResult where
  | ok : LoopResult
  | err : GoErr → LoopResult
  | panicked : String → LoopResult
deriving DecidableEq

/-- The `UntilTrueFunc` predicate type: `func(interface\x7b\x7d) (bool, error)`. -/
def UntilTrueFunc := GoVal → Except GoErr Bool

/-- The predicate loop of `LoopUntil` over the content elements:
`stop, err := untilFunc(content.Index(i))` — note the argument is the
`reflect.Value` of the element boxed into the interface (`GoVal.rval`),
not the element itself.  On error return it; on `stop` return nil; after
the last element without a stop return `ErrConditionNeverMet`.
The second component is a ghost counter of predicate invocations. -/
def predLoop (untilFunc : UntilTrueFunc) : List GoVal → LoopResult × Nat
  | [] => (.err .conditionNeverMet, 0)
  | x :: xs =>
    match untilFunc (.rval x) with
    | .error e => (.err e, 1)
    | .ok true => (.ok, 1)
    | .ok false =>
      let r := predLoop untilFunc xs
      (r.1, r.2 + 1)

/-- Shallow embedding of `pagination.LoopUntil` (pkg/lbaas/common/common.go).

```
page, err := pageable.GetPage(ctx, 1, 10)
if err != nil \x7b return err \x7d
content := reflect.ValueOf(page.Content())
switch content.Kind() \x7b
case reflect.Array: fallthrough
case reflect.Slice:
  for i := 0; i < reflect.ValueOf(content).Len(); i++ \x7b ... \x7d
  ...
default: panic(...)
\x7d
```

The loop bound is `reflect.ValueOf(content).Len()` where `content` is
already a `reflect.Value`: re-wrapping it yields a struct-kind value, so
evaluating the bound panics before the first iteration; the branch that
would run `predLoop` is kept for faithfulness but is unreachable.
The second component is the ghost count of `untilFunc` invocations. -/
def LoopUntil (pageable : Pageable) (untilFunc : UntilTrueFunc) : LoopResult × Nat :=
  match pageable.getPage 1 10 with
  | .error e => (.err e, 0)
  | .ok page =>
    let content := reflectValueOf page.content
    match content.kind with
    | .array | .slice =>
      match (reflectValueOf content.boxed).lenOpt with
      | none => (.panicked reflectLenPanicMsg, 0)
      | some _ => predLoop untilFunc content.elems
    | _ => (.panicked (contentTypePanicMsg page.content), 0)

/-- Shallow embedding of `pagination.HasNext`: `page.Num() < page.Total()`. -/
def HasNext (page : Page) : Bool := decide (page.num < page.total)

/-! ### AsChan (pkg/lbaas/common/common.go)

`AsChan` spawns one goroutine that runs `LoopUntil` with the callback

```
func(i interface\x7b\x7d) (bool, error) \x7b
  select \x7b
  case consumer <- i:
  case _, ok := <-done: if !ok \x7b return true, nil \x7d
  \x7d
  return false, nil
\x7d
```

`AsChanRun` is that task under the schedule in which the consumer
receives every element and never invokes the cancellation handle: each
callback invocation sends its argument (the boxed `reflect.Value` of the
element) and returns `(false, nil)`.  The first component is the
sequence the consumer receives before the channel closes; the second is
the result of `LoopUntil` that the goroutine discards (`_ =`). -/

/-- The elements the background task of `AsChan` sends, in order, when the
consumer receives everything and cancellation never fires, paired with
the discarded `LoopUntil` result.  The control flow mirrors `LoopUntil`
with `untilFunc` specialised to the send-callback above. -/
def AsChanRun (pageable : Pageable) : List GoVal × LoopResult :=
  match pageable.getPage 1 10 with
  | .error e => ([], .err e)
  | .ok page =>
    let content := reflectValueOf page.content
    match content.kind with
    | .array | .slice =>
      match (reflectValueOf content.boxed).lenOpt with
      | none => ([], .panicked reflectLenPanicMsg)
      | some _ => (content.elems.map GoVal.rval, .err .conditionNeverMet)
    | _ => ([], .panicked (contentTypePanicMsg page.content))

/-! ### Channel-close behaviour of AsChan

`AsChan` allocates two unbuffered channels and installs three `close`
operations:

```
consumer := make(chan interface\x7b\x7d)
done := make(chan interface\x7b\x7d)
cancel := func() \x7b close(done) \x7d
go func() \x7b
  defer close(consumer)
  defer close(done)
  _ = LoopUntil(...)
\x7d()
```

Go panics when `close` is applied to an already-closed channel.  The
model below tracks the closed/open state of the two channels and runs a
sequence of `close` operations, `none` meaning a close-of-closed panic.
Deferred calls run in reverse order of registration, so the goroutine
closes `done` first, then `consumer`, on every exit (normal return or
panic unwinding). -/

/-- The two channels `AsChan` allocates. -/
inductive Chan where
  | consumer | done
deriving DecidableEq

/-- Closed/open state of the two channels of one `AsChan` call. -/
structure ChanSt where
  consumerClosed : Bool
  doneClosed : Bool
deriving DecidableEq

/-- Both channels start open. -/
def ChanSt.init : ChanSt := ⟨false, false⟩

/-- Go `close`: marks the channel closed, or panics (`none`) if it already is. -/
def closeChan (s : ChanSt) : Chan → Option ChanSt
  | .consumer => if s.consumerClosed then none else some ⟨true, s.doneClosed⟩
  | .done => if s.doneClosed then none else some ⟨s.consumerClosed, true⟩

/-- Run a sequence of `close` operations; `none` as soon as one panics. -/
def runCloses : List Chan → ChanSt → Option ChanSt
  | [], s => some s
  | c :: cs, s =>
    match closeChan s c with
    | none => none
    | some s2 => runCloses cs s2

/-- The closes performed by the cancellation handle: `cancel := func() \x7b close(done) \x7d`. -/
def cancelCloses : List Chan := [.done]

/-- The closes performed by the background task on exit: its deferred
`close(consumer)` and `close(done)`, run in reverse registration order. -/
def taskExitCloses : List Chan := [.done, .consumer]

/-! ### backend and server paged APIs (pkg/lbaas/backend/paged.go, pkg/lbaas/server/paged.go)

`api.GetPage` builds a GET request whose query carries
`page=strconv.Itoa(page)` and `limit=strconv.Itoa(limit)`, executes it
and decodes the response.  The HTTP exchange (transport, 5xx mapping,
JSON decoding) is abstracted as a function from the request's query
parameters to the decoded page or the error `GetPage` would return. -/

/-- The query parameters of one paged listing request, as set by `GetPage`:
`query.Set("page", strconv.Itoa(page))`, `query.Set("limit", strconv.Itoa(limit))`. -/
structure PagedRequest where
  page : String
  limit : String
deriving DecidableEq

/-- The request `GetPage(ctx, page, limit)` issues. -/
def pagedRequestFor (page limit : Int) : PagedRequest := ⟨toString page, toString limit⟩

/-- `backend.BackendPage` (the `data` elements are opaque). -/
structure BackendPage where
  page : Int
  totalItems : Int
  totalPages : Int
  limit : Int
  data : List GoVal

/-- `BackendPage.Num`. -/
def BackendPage.num (f : BackendPage) : Int := f.page

/-- `BackendPage.Size`. -/
def BackendPage.size (f : BackendPage) : Int := f.limit

/-- `BackendPage.Total`. -/
def BackendPage.total (f : BackendPage) : Int := f.totalPages

/-- `backend.api.GetPage` with the HTTP exchange abstracted by `server`. -/
def backendGetPage (server : PagedRequest → Except GoErr BackendPage)
    (page limit : Int) : Except GoErr BackendPage :=
  server (pagedRequestFor page limit)

/-- `backend.api.NextPage`: `return a.GetPage(ctx, page.Num(), page.Size())`. -/
def backendNextPage (server : PagedRequest → Except GoErr BackendPage)
    (page : BackendPage) : Except GoErr BackendPage :=
  backendGetPage server page.num page.size

/-- `server.ServerPage` (the `data` elements are opaque). -/
structure ServerPage where
  page : Int
  totalItems : Int
  totalPages : Int
  limit : Int
  data : List GoVal

/-- `ServerPage.Num`. -/
def ServerPage.num (f : ServerPage) : Int := f.page

/-- `ServerPage.Size`. -/
def ServerPage.size (f : ServerPage) : Int := f.limit

/-- `server.api.GetPage` with the HTTP exchange abstracted by `server`. -/
def serverGetPage (server : PagedRequest → Except GoErr ServerPage)
    (page limit : Int) : Except GoErr ServerPage :=
  server (pagedRequestFor page limit)

/-- `server.api.NextPage`: `return a.GetPage(ctx, page.Num(), page.Size())`. -/
def serverNextPage (server : PagedRequest → Except GoErr ServerPage)
    (page : ServerPage) : Except GoErr ServerPage :=
  serverGetPage server page.num page.size

/-! ### client.New (pkg/client/client.go)

The external objects an option can install — `*http.Client` and the
`io.Writer` log target — are opaque to `New`; they are modelled by
numeric handles (`none` standing for the Go nil). -/

/-- The `optionSet` struct: `httpClient *http.Client`, `token string`,
`logWriter io.Writer`, zero-valued at the start of `New`. -/
structure OptionSet where
  httpClient : Option Nat
  token : String
  logWriter : Option Nat

/-- The zero value `optionSet\x7b\x7d` `New` starts from. -/
def OptionSet.empty : OptionSet := ⟨none, "", none⟩

/-- The `Option` type of pkg/client: `func(o *optionSet) error`; the
returned pair is the mutated option set and the returned error. -/
def ClientOption := OptionSet → OptionSet × Option GoErr

/-- `TokenFromString(token)`: sets `o.token`, never errors. -/
def tokenFromString (token : String) : ClientOption :=
  fun o => ({ o with token := token }, none)

/-- The error `New` returns when no token was configured:
`fmt.Errorf("%w: token not set", ErrConfiguration)`. -/
def tokenNotSetErr : GoErr := .wrapped "token not set" .errConfiguration

/-- The error `TokenFromEnv` returns when `ANEXIA_TOKEN` is absent:
`fmt.Errorf("%w: %s", ErrEnvMissing, TokenEnvName)`. -/
def envMissingErr : GoErr := .wrapped "ANEXIA_TOKEN" .errEnvMissing

/-- `TokenFromEnv(unset)`, with the process environment passed explicitly
as a lookup function (`os.LookupEnv`).  When the variable is present and
`unset` is true the source also calls `os.Unsetenv`, an environment
mutation invisible to this read-only model; its rarely-taken error path
is not modelled. -/
def tokenFromEnv (env : String → Option String) (_unset : Bool) : ClientOption :=
  fun o =>
    match env "ANEXIA_TOKEN" with
    | none => (o, some envMissingErr)
    | some token => ({ o with token := token }, none)

/-- `AuthFromEnv(unset)`: `return TokenFromEnv(unset)`. -/
def authFromEnv (env : String → Option String) (unset : Bool) : ClientOption :=
  tokenFromEnv env unset

/-- `LogWriter(w)`: sets `o.logWriter`, never errors. -/
def logWriterOption (w : Nat) : ClientOption :=
  fun o => ({ o with logWriter := some w }, none)

/-- `HTTPClient(c)`: sets `o.httpClient`, never errors. -/
def httpClientOption (c : Nat) : ClientOption :=
  fun o => ({ o with httpClient := some c }, none)

/-- The handle standing for `http.DefaultClient`. -/
def defaultHTTPClient : Nat := 0

/-- The `tokenClient` value `New` constructs on success. -/
structure TokenClient where
  token : String
  httpClient : Nat
  logWriter : Option Nat
deriving DecidableEq

/-- The option loop of `New`: apply each option in order to the shared
`optionSet`, stopping at the first option that returns a non-nil error. -/
def runOptions : List ClientOption → OptionSet → OptionSet × Option GoErr
  | [], o => (o, none)
  | opt :: rest, o =>
    match opt o with
    | (o2, some e) => (o2, some e)
    | (o2, none) => runOptions rest o2

/-- Shallow embedding of `client.New`:

```
optionSet := optionSet\x7b\x7d
for _, option := range options \x7b
  if err := option(&optionSet); err != nil \x7b return nil, err \x7d
\x7d
if optionSet.httpClient == nil \x7b optionSet.httpClient = http.DefaultClient \x7d
if optionSet.token != "" \x7b return &tokenClient\x7b...\x7d, nil \x7d
return nil, fmt.Errorf("%w: token not set", ErrConfiguration)
``` -/
def clientNew (options : List ClientOption) : Except GoErr TokenClient :=
  match runOptions options OptionSet.empty with
  | (_, some e) => .error e
  | (o, none) =>
    let hc := match o.httpClient with
      | none => defaultHTTPClient
      | some c => c
    if o.token ≠ "" then .ok ⟨o.token, hc, o.logWriter⟩
    else .error tokenNotSetErr

/-! ### Concrete inputs used by the theorems below -/

/-- A page whose content is a slice of ints. -/
def pageWithInts (n total : Int) (xs : List Int) : Page :=
  ⟨n, 10, total, .slice (xs.map GoVal.intV)⟩

/-- A Pageable exposing exactly one page. -/
def singlePagePageable (p : Page) : Pageable :=
  { getPage := fun n _l => if n = 1 then .ok p else .error (.custom "no such page")
    nextPage := fun _ => .error (.custom "no next page") }

/-- A Pageable with page 1 holding the single element 42. -/
def egOneElemPageable : Pageable := singlePagePageable (pageWithInts 1 1 [42])

/-- A predicate true exactly on the element 42 (as `LoopUntil` hands the
elements over: boxed in a `reflect.Value`). -/
def predIs42 : UntilTrueFunc := fun v =>
  match v with
  | .rval (.intV 42) => .ok true
  | _ => .ok false

/-- The concrete scenario of spec section 8: page 1 = (number 1, size 10,
totalPages 2, content 1,2,3), page 2 = (number 2, size 10, totalPages 2,
content 4,5). -/
def egScanPages : Pageable :=
  { getPage := fun n _l =>
      if n = 1 then .ok (pageWithInts 1 2 [1, 2, 3])
      else if n = 2 then .ok (pageWithInts 2 2 [4, 5])
      else .error (.custom "no such page")
    nextPage := fun prior =>
      if prior.num = 1 then .ok (pageWithInts 2 2 [4, 5])
      else .error (.custom "no next page") }

/-- A predicate true exactly on the element 4 (boxed in a `reflect.Value`). -/
def predIs4 : UntilTrueFunc := fun v =>
  match v with
  | .rval (.intV 4) => .ok true
  | _ => .ok false

/-- A Pageable with pages of content sizes 3, 3, 2 (elements 1..8) and
totalPages 3, whose `nextPage` really advances by one page. -/
def egStreamPages : Pageable :=
  { getPage := fun n _l =>
      if n = 1 then .ok (pageWithInts 1 3 [1, 2, 3])
      else if n = 2 then .ok (pageWithInts 2 3 [4, 5, 6])
      else if n = 3 then .ok (pageWithInts 3 3 [7, 8])
      else .error (.custom "no such page")
    nextPage := fun prior =>
      if prior.num = 1 then .ok (pageWithInts 2 3 [4, 5, 6])
      else if prior.num = 2 then .ok (pageWithInts 3 3 [7, 8])
      else .error (.custom "no next page") }

/-- A Pageable whose every fetch fails with a transport error. -/
def egFailingPageable : Pageable :=
  { getPage := fun _ _ => .error (.custom "transport failure")
    nextPage := fun _ => .error (.custom "transport failure") }

/-- The always-false predicate. -/
def alwaysFalsePred : UntilTrueFunc := fun _ => .ok false

/-- A Pageable with page 1 holding the elements 10, 20, 30. -/
def egThreeElemPageable : Pageable := singlePagePageable (pageWithInts 1 1 [10, 20, 30])

/-- A predicate that errors on every element. -/
def erroringPred : UntilTrueFunc := fun _ => .error (.custom "predicate failure")

/-- A Pageable whose page-1 content is the int 7, not a slice or array. -/
def egInvalidContentPageable : Pageable := singlePagePageable ⟨1, 10, 1, .intV 7⟩

/-- A last page: number 3 of 3. -/
def egLastPage : Page := ⟨3, 10, 3, .slice []⟩

/-- Backend page number 1 of 2, limit 10. -/
def bp1 : BackendPage := ⟨1, 5, 2, 10, []⟩

/-- Backend page number 2 of 2, limit 10. -/
def bp2 : BackendPage := ⟨2, 5, 2, 10, []⟩

/-- A well-behaved backend listing endpoint: serves `bp1` for `page=1`
and `bp2` for `page=2`. -/
def egBackendServer : PagedRequest → Except GoErr BackendPage := fun r =>
  if r.page = "1" then .ok bp1
  else if r.page = "2" then .ok bp2
  else .error (.custom "no such page")

/-- Server page number 1 of 2, limit 10. -/
def sp1 : ServerPage := ⟨1, 5, 2, 10, []⟩

/-- Server page number 2 of 2, limit 10. -/
def sp2 : ServerPage := ⟨2, 5, 2, 10, []⟩

/-- A well-behaved server listing endpoint: serves `sp1` for `page=1`
and `sp2` for `page=2`. -/
def egServerServer : PagedRequest → Except GoErr ServerPage := fun r =>
  if r.page = "1" then .ok sp1
  else if r.page = "2" then .ok sp2
  else .error (.custom "no such page")

/-- An environment in which `ANEXIA_TOKEN` is not set. -/
def emptyEnv : String → Option String := fun _ => none

end Anx

namespace Anx

/-! ### Claim theorems -/

/-- Claim C1.  The claim states that `LoopUntil`, on a Pageable whose
page 1 contains an element satisfying the predicate, returns success
after fetching exactly page (1, 10).  On the code this fails: the loop
bound `reflect.ValueOf(content).Len()` re-wraps the `reflect.Value`
`content`, obtaining a struct-kind value, so the call panics before the
predicate is ever evaluated.  At the failing input — page 1 with content
the one-element slice 42 and a predicate true exactly on 42 — `LoopUntil`
panics with the `reflect.Value.Len` message and evaluates the predicate
zero times, instead of returning success. -/
theorem loopUntil_find_on_first_page_panics :
    LoopUntil egOneElemPageable predIs42 = (.panicked reflectLenPanicMsg, 0) := rfl

/-- Claim C2.  The claim states that `LoopUntil`, when no element of page 1
satisfies the predicate, returns `ErrConditionNeverMet` regardless of
`totalPages` (even when a later page holds a satisfying element).  On the
code this fails for the same reason as C1: at the spec's own concrete
scenario — page 1 content 1,2,3, page 2 content 4,5, predicate x = 4 —
`LoopUntil` panics in `reflect.Value.Len` with zero predicate
evaluations instead of returning `ErrConditionNeverMet`. -/
theorem loopUntil_condition_never_met_panics :
    LoopUntil egScanPages predIs4 = (.panicked reflectLenPanicMsg, 0) := rfl

/-- Claim C3.  The claim states that `AsChan`, on a Pageable with pages of
content sizes 3, 3, 2 and totalPages 3, delivers all 8 elements in order
and then closes the channel.  On the code this fails twice over: the
background task is `LoopUntil`, which (first conjunct) panics in
`reflect.Value.Len` before sending anything, so the consumer receives
zero elements; and (second conjunct) `LoopUntil` does not depend on the
`NextPage` operation at all, so no advancing to pages 2 and 3 via
`fetchNext` can take place even with the length slip repaired. -/
theorem asChan_delivers_nothing :
    AsChanRun egStreamPages = ([], .panicked reflectLenPanicMsg) ∧
    ∀ (pb : Pageable) (g : Page → Except GoErr Page) (f : UntilTrueFunc),
      LoopUntil { getPage := pb.getPage, nextPage := g } f = LoopUntil pb f :=
  ⟨rfl, fun _ _ _ => rfl⟩

/-- Claim C4.  The claim states that `NextPage` is equivalent to fetching
page number `p.Num() + 1` at size `p.Size()`, so that repeated calls walk
strictly increasing page numbers.  On the code this fails: `NextPage`
calls `GetPage(ctx, page.Num(), page.Size())`, re-requesting the same
page number.  Against a well-behaved endpoint serving distinct pages 1
and 2, `NextPage` applied to page 1 returns page 1 again — a fixed point,
so the visited numbers never increase — and differs from the
`GetPage(Num()+1, Size())` fetch the claim requires.  The backend and
server implementations are textually identical; both are refuted. -/
theorem nextPage_repeats_same_page :
    backendNextPage egBackendServer bp1 = .ok bp1 ∧
    backendGetPage egBackendServer (bp1.num + 1) bp1.size = .ok bp2 ∧
    backendNextPage egBackendServer bp1 ≠ backendGetPage egBackendServer (bp1.num + 1) bp1.size ∧
    serverNextPage egServerServer sp1 = .ok sp1 ∧
    serverNextPage egServerServer sp1 ≠ serverGetPage egServerServer (sp1.num + 1) sp1.size := by
  refine ⟨rfl, rfl, ?_, rfl, ?_⟩
  · intro h
    have h2 : Except.ok (ε := GoErr) bp1 = Except.ok bp2 := h
    injection h2 with h3
    exact absurd (congrArg BackendPage.page h3) (by decide)
  · intro h
    have h2 : Except.ok (ε := GoErr) sp1 = Except.ok sp2 := h
    injection h2 with h3
    exact absurd (congrArg ServerPage.page h3) (by decide)

/-- Claim C5.  The claim states that calling the cancellation handle of
`AsChan` exactly once — at any point — never causes a close-of-closed-
channel panic.  On the code this fails: the background task closes the
`done` channel in a deferred call on every exit, and `cancel` closes the
same channel, so one `cancel` call always produces a second close of
`done`.  First conjunct: cancel invoked after the task exits panics;
second: cancel invoked before the task exits makes the task's deferred
close panic; third: with no cancel call at all the closes succeed. -/
theorem asChan_cancel_once_double_close :
    runCloses (taskExitCloses ++ cancelCloses) ChanSt.init = none ∧
    runCloses (cancelCloses ++ taskExitCloses) ChanSt.init = none ∧
    runCloses taskExitCloses ChanSt.init = some ⟨true, true⟩ :=
  ⟨rfl, rfl, rfl⟩

/-- Claim C6 (confirmed).  If the first `GetPage(ctx, 1, 10)` call fails
with error `e`, `LoopUntil` returns exactly `e` and the predicate is
evaluated zero times (the ghost second component of `LoopUntil`). -/
theorem loopUntil_propagates_fetch_error (pb : Pageable) (f : UntilTrueFunc) (e : GoErr)
    (h : pb.getPage 1 10 = .error e) :
    LoopUntil pb f = (.err e, 0) := by
  unfold LoopUntil
  rw [h]

/-- Witness for C6 at a Pageable whose fetch fails with a transport error. -/
theorem loopUntil_propagates_fetch_error_witness :
    LoopUntil egFailingPageable alwaysFalsePred = (.err (.custom "transport failure"), 0) :=
  loopUntil_propagates_fetch_error egFailingPageable alwaysFalsePred
    (.custom "transport failure") rfl

/-- Claim C7.  The claim states that a predicate error on the k-th element
of page 1 is returned as-is, with no later element evaluated.  On the
code this fails as in C1: at a page-1 content of three elements and a
predicate erroring on every element, `LoopUntil` panics in
`reflect.Value.Len` with zero predicate evaluations, instead of
returning the predicate's error after one evaluation. -/
theorem loopUntil_predicate_error_unreached :
    LoopUntil egThreeElemPageable erroringPred = (.panicked reflectLenPanicMsg, 0) := rfl

/-- Claim C8 (confirmed).  If page 1 is fetched successfully but its
content is not a slice or array, `LoopUntil` panics with the content-type
message (the `default` branch of the kind switch) — it neither treats
the content as empty nor returns a recoverable error value. -/
theorem loopUntil_invalid_content_panics (pb : Pageable) (f : UntilTrueFunc) (page : Page)
    (hget : pb.getPage 1 10 = .ok page)
    (hslice : (reflectValueOf page.content).kind ≠ RKind.slice)
    (harray : (reflectValueOf page.content).kind ≠ RKind.array) :
    LoopUntil pb f = (.panicked (contentTypePanicMsg page.content), 0) := by
  obtain ⟨n, sz, tot, c⟩ := page
  unfold LoopUntil
  rw [hget]
  revert hslice harray
  cases c <;> intro hslice harray <;> first
    | exact absurd rfl hslice
    | exact absurd rfl harray
    | rfl

/-- Witness for C8 at a Pageable whose page-1 content is the int 7. -/
theorem loopUntil_invalid_content_panics_witness :
    LoopUntil egInvalidContentPageable alwaysFalsePred
      = (.panicked (contentTypePanicMsg (.intV 7)), 0) :=
  loopUntil_invalid_content_panics egInvalidContentPageable alwaysFalsePred
    ⟨1, 10, 1, .intV 7⟩ rfl (by decide) (by decide)

/-- Claim C9 (confirmed).  `HasNext` returns true exactly when
`page.Num() < page.Total()`; in particular it is false on a last page,
where the number equals the total. -/
theorem hasNext_iff_num_lt_total (page : Page) :
    (HasNext page = true ↔ page.num < page.total) ∧
    (page.num = page.total → HasNext page = false) := by
  constructor
  · simp [HasNext]
  · intro h
    simp [HasNext, h]

/-- Witness for C9 at the last page (number 3 of 3). -/
theorem hasNext_iff_num_lt_total_witness :
    egLastPage.num = egLastPage.total ∧ HasNext egLastPage = false :=
  ⟨rfl, (hasNext_iff_num_lt_total egLastPage).2 rfl⟩

/-- Counterexample for claim C10.  The claim states that whenever no option
sets a non-empty token, `New` returns an error wrapping
`ErrConfiguration`.  With the single option `TokenFromEnv(false)` in an
environment lacking `ANEXIA_TOKEN`, no option sets a token, yet `New`
returns the option's own error — which wraps `ErrEnvMissing`, not
`ErrConfiguration`. -/
theorem clientNew_option_error_not_configuration :
    clientNew [tokenFromEnv emptyEnv false] = .error envMissingErr ∧
    (runOptions [tokenFromEnv emptyEnv false] OptionSet.empty).1.token = "" ∧
    errorsIs envMissingErr GoErr.errConfiguration = false :=
  ⟨rfl, rfl, rfl⟩

/-- Claim C10 as amended: `New` returns a client only with a non-empty
token; when every option succeeds and the resulting token is empty it
returns the error wrapping `ErrConfiguration`; when an option fails it
returns that option's error instead. -/
theorem clientNew_token_gate (options : List ClientOption) :
    (∀ c, clientNew options = .ok c → c.token ≠ "") ∧
    ((runOptions options OptionSet.empty).2 = none →
      (runOptions options OptionSet.empty).1.token = "" →
      clientNew options = .error tokenNotSetErr) ∧
    (∀ e, (runOptions options OptionSet.empty).2 = some e →
      clientNew options = .error e) := by
  rcases hro : runOptions options OptionSet.empty with ⟨o, oe⟩
  refine ⟨?_, ?_, ?_⟩
  · intro c hok
    cases oe with
    | some e =>
      simp only [clientNew, hro] at hok
      exact Except.noConfusion hok
    | none =>
      simp only [clientNew, hro] at hok
      by_cases ht : o.token = ""
      · rw [if_neg (by simp [ht])] at hok
        exact Except.noConfusion hok
      · rw [if_pos ht] at hok
        injection hok with h
        rw [← h]
        exact ht
  · intro h1 h2
    cases oe with
    | some e => exact Option.noConfusion h1
    | none =>
      simp only [clientNew, hro]
      rw [if_neg (by simp_all)]
  · intro e he
    cases oe with
    | some e2 =>
      injection he with h
      subst h
      simp only [clientNew, hro]
    | none => exact Option.noConfusion he

/-- Witness for the amended C10: no options gives the `ErrConfiguration`
wrap, a set token gives a client with that token, and a failing option
propagates its error. -/
theorem clientNew_token_gate_witness :
    clientNew [] = .error tokenNotSetErr ∧
    (("secret" : String) ≠ "") ∧
    clientNew [tokenFromEnv emptyEnv false] = .error envMissingErr :=
  ⟨(clientNew_token_gate []).2.1 rfl rfl,
   (clientNew_token_gate [tokenFromString "secret"]).1 ⟨"secret", defaultHTTPClient, none⟩ rfl,
   (clientNew_token_gate [tokenFromEnv emptyEnv false]).2.2 envMissingErr rfl⟩

end Anx
